import Mathlib

/-!
Verification of the Hindalco primary-rate downloader against its
natural-language specification.

The development shallowly embeds the Python sources:
  - src/main.py           (update_csv_files, process_date, check_pdf_validity,
                           get_pdf_url, get_alternative_pdf_urls, main)
  - src/main_py.py        (extract_data_from_pdf merge chain, update_csv_files,
                           the prior-day retry in main)

Dates in the CSV ledgers are ISO `YYYY-MM-DD` strings; `pd.to_datetime`
followed by a chronological sort orders them exactly as the strings order
lexicographically, and both orders embed order-isomorphically into the
naturals.  Ledger dates are therefore modelled as `Nat`.  Rates are only
ever copied (never arithmetically combined) by `update_csv_files`, so they
are modelled as `Nat` as well.
-/

/-- One row of a product's CSV ledger.  The files written by
`update_csv_files` have exactly the columns `date` and `rate`
(main.py lines 244-246, main_py.py line 453); no provenance column exists. -/
structure Entry where
  date : Nat
  rate : Nat
deriving DecidableEq, Repr

abbrev Ledger := List Entry

/-- Ordering of ledger rows by their date, the key used by
`df.sort_values('date')`. -/
def eLe (a b : Entry) : Prop := a.date ≤ b.date

instance : DecidableRel eLe := fun a b => Nat.decLe a.date b.date

instance : IsTotal Entry eLe := ⟨fun a b => Nat.le_total a.date b.date⟩

instance : IsTrans Entry eLe := ⟨fun _ _ _ => Nat.le_trans⟩

/-- Shallow embedding of the per-product body of `update_csv_files`
(main.py lines 248-270).  `df` is the loaded CSV content, `d` the run's
date, `v = data.get(product)` the extracted reading if any.
If the date already has a row, the rate is overwritten only when a new
reading exists; otherwise a new row is appended whose rate is the fresh
reading, else the last stored row's rate (`df.iloc[-1]['rate']`), else the
literal default `0`.  Finally the frame is re-sorted by date and saved. -/
def updateBody (df : Ledger) (d : Nat) (v : Option Nat) : Ledger :=
  if d ∈ df.map Entry.date then
    match v with
    | some r => df.map (fun e => if e.date = d then ⟨e.date, r⟩ else e)
    | none => df
  else
    let newRate :=
      match v with
      | some r => r
      | none =>
        match df.getLast? with
        | some e => e.rate
        | none => 0
    df ++ [⟨d, newRate⟩]

/-- The complete per-product update: modify the frame as `updateBody`,
then `df.sort_values('date')` and save (main.py lines 265-270). -/
def updateProductCsv (df : Ledger) (d : Nat) (v : Option Nat) : Ledger :=
  List.insertionSort eLe (updateBody df d v)

/-- Rate stored for date `d` in a ledger (first matching row). -/
def rateAt (df : Ledger) (d : Nat) : Option Nat :=
  (df.find? (fun e => decide (e.date = d))).map Entry.rate

/-- Rate of the most recent entry dated strictly before `d`.  This follows
the specification's words for forward-fill ("the most recent prior entry's
rate for dates strictly before date"); it is the comparison point for what
the code actually does. -/
def mostRecentRateBefore (df : Ledger) (d : Nat) : Option Nat :=
  ((df.filter (fun e => decide (e.date < d))).foldl
    (fun acc e =>
      match acc with
      | none => some e
      | some b => if b.date ≤ e.date then some e else some b)
    none).map Entry.rate

/-!
Extraction pipeline of src/main_py.py (`extract_data_from_pdf`,
lines 118-195).  The four strategies are regular-expression searches over
the PDF text; the claims under verification concern the merge policy
across them (lines 134-168) and the final hard-coded fallback
(lines 172-189), so each strategy is modelled by the product-to-price
mapping it returns.  `PRODUCTS` in main_py.py has 7 members, so products
are `Fin 7` and a strategy result is `Fin 7 → Option Nat` (a Python dict
keyed by product).  `extract_with_tabula` alone may return `None` (its
exception handler, line 319), hence its result is wrapped in `Option`.
-/

/-- A strategy's result dictionary: extracted price per product, if any. -/
abbrev RateMap := Fin 7 → Option Nat

/-- Number of products in main_py.py's `PRODUCTS` list (lines 22-30). -/
def numPRODUCTS : Nat := 7

/-- Size of a result dictionary, as in `len(product_rates)`. -/
def mapSize (m : RateMap) : Nat :=
  (List.finRange 7).countP (fun p => (m p).isSome)

/-- The dictionary with no product resolved. -/
def emptyRates : RateMap := fun _ => none

/-- Merge where the incoming dictionary wins, as in the tabula merge loop
`for product, rate in tabula_rates.items(): product_rates[product] = rate`
(main_py.py lines 144-146, commented "preferring tabula results over
direct extraction"). -/
def mergeOverwrite (base incoming : RateMap) : RateMap :=
  fun p =>
    match incoming p with
    | some v => some v
    | none => base p

/-- Merge where already-resolved products are kept, as in
`if product not in product_rates: product_rates[product] = rate`
(main_py.py lines 154-157 and 165-168). -/
def mergeKeep (base incoming : RateMap) : RateMap :=
  fun p =>
    match base p with
    | some v => some v
    | none => incoming p

/-- Stage 2 of the chain (main_py.py lines 139-146): tabula extraction runs
only if direct extraction is incomplete, and its results overwrite. -/
def stage2 (r1 : RateMap) (s2 : Option RateMap) : RateMap :=
  if mapSize r1 < numPRODUCTS then
    match s2 with
    | some t => mergeOverwrite r1 t
    | none => r1
  else r1

/-- Stage 3 of the chain (main_py.py lines 149-157): text search runs only
if products are still missing and never overwrites. -/
def stage3 (r2 : RateMap) (s3 : RateMap) : RateMap :=
  if mapSize r2 < numPRODUCTS then mergeKeep r2 s3 else r2

/-- Stage 4 of the chain (main_py.py lines 160-168): manual line scan runs
only if products are still missing and never overwrites. -/
def stage4 (r3 : RateMap) (s4 : RateMap) : RateMap :=
  if mapSize r3 < numPRODUCTS then mergeKeep r3 s4 else r3

/-- The full strategy chain of main_py.py lines 134-168, parameterised by
the four strategies' result dictionaries `s1` (extract_prices_directly),
`s2` (extract_with_tabula, possibly None), `s3` (extract_with_text_search)
and `s4` (manual_extract_tables). -/
def mergeStrategies (s1 : RateMap) (s2 : Option RateMap) (s3 s4 : RateMap) : RateMap :=
  stage4 (stage3 (stage2 s1 s2) s3) s4

/-- The hard-coded fallback prices substituted when no method found any
data (main_py.py lines 175-182). -/
def fallbackRates (p : Fin 7) : Nat :=
  [252500, 251000, 250500, 259750, 267500, 268600, 270100].getD p.val 0

/-- Shallow embedding of `extract_data_from_pdf` in src/main_py.py
(lines 118-190), restricted to the product-price portion of its result
(the function additionally inserts the run's date under the key `date`).
After the strategy chain, if the dictionary is still empty, the hard-coded
fallback prices are substituted (lines 172-185). -/
def extract_data_from_pdf (s1 : RateMap) (s2 : Option RateMap) (s3 s4 : RateMap) : RateMap :=
  let r := mergeStrategies s1 s2 s3 s4
  if mapSize r = 0 then fun p => some (fallbackRates p) else r

/-- The value assigned by the first strategy, in order 1-2-3-4, that
resolved a product.  This follows the claim's words ("the value assigned
by the first strategy in order 1→2→3→4 that resolved it") and is the
comparison point for the code's actual merge policy. -/
def firstResolvedValue (s1 : RateMap) (s2 : Option RateMap) (s3 s4 : RateMap)
    (p : Fin 7) : Option Nat :=
  match s1 p with
  | some v => some v
  | none =>
    match (match s2 with | some t => t p | none => none) with
    | some v => some v
    | none =>
      match s3 p with
      | some v => some v
      | none => s4 p

/-- Strategy dictionary resolving only product 0, used in concrete
counterexamples: direct extraction found 100 for the first product. -/
def onlyP0 (v : Nat) : RateMap :=
  fun p => if p.val = 0 then some v else none

/-!
Calendar dates.  The scripts use Python `datetime`; here a date is a
year-month-day triple.  The day count `dayNumber` (days elapsed since
0000-03-01 in the proleptic Gregorian calendar, via the standard
era-of-400-years civil-from-days arithmetic) gives the weekday in Python's
convention (Monday = 0) and drives the date-range loop.
-/

/-- A calendar date, as held by a Python `datetime`. -/
structure Date where
  year : Nat
  month : Nat
  day : Nat
deriving DecidableEq, Repr

/-- Days elapsed since 0000-03-01 of the proleptic Gregorian calendar. -/
def dayNumber (dt : Date) : Nat :=
  let y := if dt.month ≤ 2 then dt.year - 1 else dt.year
  let era := y / 400
  let yoe := y - era * 400
  let mp := (dt.month + 9) % 12
  let doy := (153 * mp + 2) / 5 + dt.day - 1
  let doe := yoe * 365 + yoe / 4 - yoe / 100 + doy
  era * 146097 + doe

/-- Python's `date.weekday()`: Monday = 0 through Sunday = 6.
1970-01-01 has `dayNumber` 719468 and was a Thursday (3). -/
def weekday (dt : Date) : Nat := (dayNumber dt + 2) % 7

/-- Length of a month in days, Gregorian leap rule. -/
def daysInMonth (y m : Nat) : Nat :=
  if m = 2 then
    if y % 4 = 0 ∧ (y % 100 ≠ 0 ∨ y % 400 = 0) then 29 else 28
  else if m = 4 ∨ m = 6 ∨ m = 9 ∨ m = 11 then 30
  else 31

/-- The calendar day after `d`, as computed by `d + timedelta(days=1)`. -/
def nextDay (d : Date) : Date :=
  if d.day < daysInMonth d.year d.month then ⟨d.year, d.month, d.day + 1⟩
  else if d.month < 12 then ⟨d.year, d.month + 1, 1⟩
  else ⟨d.year + 1, 1, 1⟩

/-- The calendar day before `d`, as computed by `d - timedelta(days=1)`. -/
def prevDay (d : Date) : Date :=
  if 1 < d.day then ⟨d.year, d.month, d.day - 1⟩
  else if 1 < d.month then ⟨d.year, d.month - 1, daysInMonth d.year (d.month - 1)⟩
  else ⟨d.year - 1, 12, 31⟩

/-- Lowercased abbreviated month name, `date.strftime('%b').lower()`. -/
def monthAbbrev (m : Nat) : String :=
  match m with
  | 1 => "jan" | 2 => "feb" | 3 => "mar" | 4 => "apr"
  | 5 => "may" | 6 => "jun" | 7 => "jul" | 8 => "aug"
  | 9 => "sep" | 10 => "oct" | 11 => "nov" | _ => "dec"

/-- Lowercased full month name, `date.strftime('%B').lower()`. -/
def monthFullName (m : Nat) : String :=
  match m with
  | 1 => "january" | 2 => "february" | 3 => "march" | 4 => "april"
  | 5 => "may" | 6 => "june" | 7 => "july" | 8 => "august"
  | 9 => "september" | 10 => "october" | 11 => "november" | _ => "december"

/-- Zero-padded two-digit rendering, Python's `02d` format. -/
def pad2 (n : Nat) : String :=
  if n < 10 then "0" ++ toString n else toString n

/-- English ordinal suffix of a day number (main.py lines 96-100). -/
def ordinalSuffix (day : Nat) : String :=
  if 10 ≤ day % 100 ∧ day % 100 ≤ 20 then "th"
  else
    match day % 10 with
    | 1 => "st"
    | 2 => "nd"
    | 3 => "rd"
    | _ => "th"

/-- Canonical PDF URL for a date, `get_pdf_url` in main.py lines 80-86
(main_py.py lines 84-90 generate the identical string). -/
def get_pdf_url (d : Date) : String :=
  "https://www.hindalco.com/Upload/PDF/primary-ready-reckoner-" ++
    pad2 d.day ++ "-" ++ monthAbbrev d.month ++ "-" ++ toString d.year ++ ".pdf"

/-- The fifteen alternative URL spellings, `get_alternative_pdf_urls` in
main.py lines 88-133, in source order. -/
def get_alternative_pdf_urls (d : Date) : List String :=
  let day2 := pad2 d.day
  let dayRaw := toString d.day
  let suffix := ordinalSuffix d.day
  let ms := monthAbbrev d.month
  let mf := monthFullName d.month
  let mn := pad2 d.month
  let yr := toString d.year
  [ "https://www.hindalco.com/upload/pdf/primary-ready-reckoner-" ++ day2 ++ "-" ++ ms ++ "-" ++ yr ++ ".pdf",
    "https://www.hindalco.com/Upload/Pdf/primary-ready-reckoner-" ++ day2 ++ "-" ++ ms ++ "-" ++ yr ++ ".pdf",
    "https://www.hindalco.com/Upload/PDF/primary-ready-reckoner-" ++ dayRaw ++ suffix ++ "-" ++ ms ++ "-" ++ yr ++ ".pdf",
    "https://www.hindalco.com/upload/pdf/primary-ready-reckoner-" ++ dayRaw ++ suffix ++ "-" ++ ms ++ "-" ++ yr ++ ".pdf",
    "https://www.hindalco.com/Upload/PDF/primary-ready-reckoner-" ++ dayRaw ++ "-" ++ ms ++ "-" ++ yr ++ ".pdf",
    "https://www.hindalco.com/upload/pdf/primary-ready-reckoner-" ++ dayRaw ++ "-" ++ ms ++ "-" ++ yr ++ ".pdf",
    "https://www.hindalco.com/Upload/PDF/primary-ready-reckoner-" ++ day2 ++ "-" ++ mf ++ "-" ++ yr ++ ".pdf",
    "https://www.hindalco.com/upload/pdf/primary-ready-reckoner-" ++ day2 ++ "-" ++ mf ++ "-" ++ yr ++ ".pdf",
    "https://www.hindalco.com/Upload/PDF/primary-ready-reckoner-" ++ day2 ++ "-" ++ mn ++ "-" ++ yr ++ ".pdf",
    "https://www.hindalco.com/upload/pdf/primary-ready-reckoner-" ++ day2 ++ "-" ++ mn ++ "-" ++ yr ++ ".pdf",
    "https://www.hindalco.com/Upload/PDF/primary-ready-reckoner-" ++ day2 ++ "_" ++ ms ++ "_" ++ yr ++ ".pdf",
    "https://www.hindalco.com/Upload/PDF/primary_ready_reckoner_" ++ day2 ++ "_" ++ ms ++ "_" ++ yr ++ ".pdf",
    "https://www.hindalco.com/Upload/PDF/ready-reckoner-" ++ day2 ++ "-" ++ ms ++ "-" ++ yr ++ ".pdf",
    "https://www.hindalco.com/Upload/PDF/primary-reckoner-" ++ day2 ++ "-" ++ ms ++ "-" ++ yr ++ ".pdf",
    "https://www.hindalco.com/Upload/PDF/primary-rates-" ++ day2 ++ "-" ++ ms ++ "-" ++ yr ++ ".pdf" ]

/-- The ordered candidate list a run tries for one date,
`urls_to_try = [get_pdf_url(date)] + get_alternative_pdf_urls(date)`
(main.py line 288). -/
def urlsToTry (d : Date) : List String :=
  get_pdf_url d :: get_alternative_pdf_urls d

/-!
Document acquirer.  Network fetching is an external collaborator, so a
run's downloads are an oracle `down : String → Bool` telling, for each
candidate URL, whether `download_pdf` succeeds on it.
-/

/-- Shallow embedding of the acquisition result of `process_date`
(main.py lines 272-310): when a previously stored valid PDF exists the
function returns True at once; otherwise it walks the candidate list of
the target date and returns whether any candidate downloaded.  No URL of
any other date is ever attempted.  (The function's CSV side effects are
modelled separately by `updateProductCsv`.) -/
def process_date (down : String → Bool) (cachedValid : Bool) (d : Date) : Bool :=
  if cachedValid then true else (urlsToTry d).any down

/-- Shallow embedding of the acquisition in main_py.py's `main`
(lines 544-560): try the canonical URL for today; on failure, if no file
for yesterday is already stored, try the canonical URL of the previous
calendar day. -/
def main_py_acquire (down : String → Bool) (cachedYesterday : Bool) (d : Date) : Bool :=
  if down (get_pdf_url d) then true
  else if !cachedYesterday then down (get_pdf_url (prevDay d)) else false

/-- The previous business day, stepping back one day and skipping Saturday
and Sunday.  This follows the claim's words ("the prior business day
(skipping weekends)"); no such computation exists in the source. -/
def prevBusinessDay (d : Date) : Date :=
  let p := prevDay d
  if weekday p = 5 then prevDay p
  else if weekday p = 6 then prevDay (prevDay p)
  else p

/-- The acquisition behaviour the claim describes: exhaust the candidate
list for the target date, then the candidate list for the prior business
day, succeeding if either pass finds a document. -/
def acquireTwoDaySpec (down : String → Bool) (d : Date) : Bool :=
  (urlsToTry d).any down || (urlsToTry (prevBusinessDay d)).any down

/-!
Document validator, `check_pdf_validity` in main.py lines 177-188.
A stored PDF is modelled by its byte size, the result of the PyPDF2
structural parse (`none` when `PdfReader` raises, otherwise the page
count), and its extracted text.
-/

/-- An acquired document as the validator sees it. -/
structure PdfFile where
  sizeBytes : Nat
  numPages : Option Nat
  text : String
deriving Repr

/-- Shallow embedding of `check_pdf_validity` (main.py lines 177-188).
Without the PDF libraries the check is existence plus size over 1000
bytes; with them it is solely whether the structural parse yields a
positive page count.  The document text is never consulted. -/
def check_pdf_validity (processingAvailable : Bool) (pathExists : Bool) (f : PdfFile) : Bool :=
  if !processingAvailable then pathExists && decide (1000 < f.sizeBytes)
  else
    match f.numPages with
    | some n => decide (0 < n)
    | none => false

/-- The domain-indicative keyword test the claim describes: at least one
keyword, such as "reckoner", occurs in the document text
(case-insensitivity is immaterial for the lowercase texts used here).
This follows the specification's words; no keyword check exists in the
source. -/
def specContainsDomainKeyword (s : String) : Bool :=
  ["reckoner", "hindalco", "primary"].any (fun k => decide (k.data <:+: s.data))

/-!
Run orchestrator, `main` in main.py lines 312-375: build the inclusive
date list from start to end skipping weekends, process each date, and
derive the process exit status from the success count.
-/

/-- The consecutive calendar days walked by the loop of main.py
lines 344-350, unrolled by fuel: `n` further iterations starting at `d`.
The loop runs `while current_date <= end_date` adding one day per
iteration, so for `s ≤ e` it performs exactly
`dayNumber e + 1 - dayNumber s` iterations; for `s > e` none. -/
def dateListAux : Date → Nat → List Date
  | _, 0 => []
  | d, Nat.succ n => d :: dateListAux (nextDay d) n

/-- The weekday-filtered date list `dates` built by main.py lines 344-350:
every calendar day from `s` to `e` inclusive whose `weekday() < 5`. -/
def businessDates (s e : Date) : List Date :=
  (dateListAux s (dayNumber e + 1 - dayNumber s)).filter (fun d => decide (weekday d < 5))

/-- Whether `success_rate > 0` holds for main.py line 364: the rate is
`(succ / total) * 100` as floating division when `total > 0`, which is
positive exactly when at least one success occurred, and `0` otherwise. -/
def successRatePositive (succ total : Nat) : Bool :=
  if 0 < total then decide (0 < succ) else false

/-- Shallow embedding of the exit status returned by `main` in main.py
(lines 352-375): dates are processed in order with `outcome` giving each
`process_date` result, and line 375 returns
`0 if success_rate > 0 or total_dates == 0 else 1`. -/
def mainExitCode (outcome : Date → Bool) (s e : Date) : Nat :=
  let dates := businessDates s e
  let succ := dates.countP outcome
  if successRatePositive succ dates.length || decide (dates.length = 0) then 0 else 1

/-!
The full `update_csv_files` functions over all product files.  A CSV
store is a map from product index to the file's row list, `none` when the
file does not exist.  main.py has 10 products, main_py.py has 7.
-/

/-- The data dictionary passed to main.py's `update_csv_files`: the value
of the `date` key (`none` covers both a missing key and an empty value,
the two cases `data.get('date')` treats as falsy) and each product's
extracted rate if present. -/
structure UpdateData where
  date : Option Nat
  rates : Fin 10 → Option Nat

/-- Shallow embedding of `update_csv_files` in main.py (lines 230-270)
acting on the CSV store: with no usable date it returns at once; otherwise
every product's file is loaded (a missing or unreadable file becomes the
empty frame, lines 239-246), updated per `updateProductCsv`, and saved. -/
def update_csv_files (data : UpdateData) (fs : Fin 10 → Option Ledger) :
    Fin 10 → Option Ledger :=
  match data.date with
  | none => fs
  | some d => fun p => some (updateProductCsv ((fs p).getD []) d (data.rates p))

/-- The data dictionary passed to main_py.py's `update_csv_files`.  The
whole argument may be `None` (extraction raised); an empty dictionary is
one with no date and no rates. -/
structure UpdateDataPy where
  date : Option Nat
  rates : Fin 7 → Option Nat

/-- Truthiness test `if not product_rates:` for the dictionary
(main_py.py line 446): true exactly when the dictionary is empty. -/
def isEmptyDataPy (data : UpdateDataPy) : Bool :=
  data.date.isNone && (List.finRange 7).all (fun p => (data.rates p).isNone)

/-- The per-product file update of main_py.py lines 462-517.  When the
file exists its rows are updated exactly as in main.py (same in-place
overwrite, same last-row forward fill, same default 0, then sorted by
date; the `fillna` forward fill on line 503 is a no-op since every written
row carries a rate).  When the file does not exist a fresh file is
created whose only row is the extracted reading, if any: with no reading
the file holds a header and no row at all (lines 508-516). -/
def updateProductCsvPy (file : Option Ledger) (d : Nat) (v : Option Nat) : Ledger :=
  match file with
  | some df => updateProductCsv df d v
  | none =>
    match v with
    | some r => [⟨d, r⟩]
    | none => []

/-- For each product whose CSV file does not exist, create it empty
(header only); existing files are untouched (main_py.py lines 446-455). -/
def createMissingEmpty (fs : Fin 7 → Option Ledger) : Fin 7 → Option Ledger :=
  fun p =>
    match fs p with
    | some l => some l
    | none => some []

/-- Shallow embedding of `update_csv_files` in main_py.py
(lines 444-518): a `None` or empty dictionary first creates header-only
files for missing products and returns False; a nonempty dictionary
without a usable date returns False with every file untouched; otherwise
each product's file is updated per `updateProductCsvPy`. -/
def update_csv_files_py (data : Option UpdateDataPy) (fs : Fin 7 → Option Ledger) :
    Fin 7 → Option Ledger :=
  match data with
  | none => createMissingEmpty fs
  | some pd =>
    if isEmptyDataPy pd then createMissingEmpty fs
    else
      match pd.date with
      | none => fs
      | some d => fun p => some (updateProductCsvPy (fs p) d (pd.rates p))

/-!
Helper lemmas about the per-product ledger update.
-/

/-- Rewriting the rate of date-`d` rows leaves the date column unchanged. -/
theorem map_setRate_dates (df : Ledger) (d : Nat) (r : Nat) :
    (df.map (fun e => if e.date = d then ⟨e.date, r⟩ else e)).map Entry.date =
      df.map Entry.date := by
  induction df with
  | nil => rfl
  | cons e t ih =>
    by_cases h : e.date = d <;> simp [h, ih]

/-- A map that fixes every element of a list is the identity on it. -/
theorem map_fixed {α : Type} (f : α → α) :
    ∀ l : List α, (∀ x ∈ l, f x = x) → l.map f = l
  | [], _ => rfl
  | x :: t, h => by
    have hx := h x (List.mem_cons_self x t)
    have ht := map_fixed f t (fun y hy => h y (List.mem_cons_of_mem x hy))
    simp [hx, ht]

/-- The updated frame always contains a row dated `d`. -/
theorem mem_date_updateBody (df : Ledger) (d : Nat) (v : Option Nat) :
    d ∈ (updateBody df d v).map Entry.date := by
  by_cases hmem : d ∈ df.map Entry.date
  · unfold updateBody
    rw [if_pos hmem]
    cases v with
    | some r =>
      rw [map_setRate_dates]
      exact hmem
    | none => exact hmem
  · unfold updateBody
    rw [if_neg hmem]
    simp

/-- The updated frame always contains a row dated `d` (sorted form). -/
theorem mem_date_update (df : Ledger) (d : Nat) (v : Option Nat) :
    d ∈ (updateProductCsv df d v).map Entry.date := by
  have hp : List.Perm ((updateProductCsv df d v).map Entry.date)
      ((updateBody df d v).map Entry.date) :=
    (List.perm_insertionSort eLe (updateBody df d v)).map Entry.date
  exact hp.mem_iff.mpr (mem_date_updateBody df d v)

/-- After an update carrying a fresh reading `r`, every row dated `d`
holds exactly `r`. -/
theorem rate_at_update (df : Ledger) (d : Nat) (r : Nat) :
    ∀ e ∈ updateProductCsv df d (some r), e.date = d → e.rate = r := by
  intro e he hd
  have he2 : e ∈ updateBody df d (some r) :=
    ((List.perm_insertionSort eLe (updateBody df d (some r))).mem_iff).mp he
  unfold updateBody at he2
  by_cases hmem : d ∈ df.map Entry.date
  · rw [if_pos hmem] at he2
    obtain ⟨e0, _, heq⟩ := List.mem_map.mp he2
    by_cases h0 : e0.date = d
    · rw [if_pos h0] at heq
      rw [← heq]
    · rw [if_neg h0] at heq
      subst heq
      exact absurd hd h0
  · rw [if_neg hmem] at he2
    simp only [List.mem_append, List.mem_singleton] at he2
    rcases he2 with hL | hNew
    · exact absurd (hd ▸ List.mem_map_of_mem Entry.date hL) hmem
    · rw [hNew]

/-- Dates of the updated frame are unique when the input dates were. -/
theorem nodup_dates_updateBody (df : Ledger) (d : Nat) (v : Option Nat)
    (h : (df.map Entry.date).Nodup) : ((updateBody df d v).map Entry.date).Nodup := by
  by_cases hmem : d ∈ df.map Entry.date
  · unfold updateBody
    rw [if_pos hmem]
    cases v with
    | some r =>
      rw [map_setRate_dates]
      exact h
    | none => exact h
  · unfold updateBody
    rw [if_neg hmem]
    simp only [List.map_append, List.map_cons, List.map_nil]
    rw [List.nodup_append]
    refine ⟨h, List.nodup_singleton d, ?_⟩
    intro a ha hb
    simp only [List.mem_singleton] at hb
    subst hb
    exact hmem ha

/-- Claim C2: for every product ledger with unique dates and every call of
`update_csv_files` with any date and reading, after the write the stored
sequence of rows is strictly ascending in date, so dates are pairwise
unique (at most one row per date) and the rows are sorted ascending. -/
theorem update_csv_sorted_unique (df : Ledger) (d : Nat) (v : Option Nat)
    (h : (df.map Entry.date).Nodup) :
    List.Pairwise (fun a b : Entry => a.date < b.date) (updateProductCsv df d v) := by
  have hsorted : List.Sorted eLe (updateProductCsv df d v) :=
    List.sorted_insertionSort eLe (updateBody df d v)
  have hperm : List.Perm ((updateProductCsv df d v).map Entry.date)
      ((updateBody df d v).map Entry.date) :=
    (List.perm_insertionSort eLe (updateBody df d v)).map Entry.date
  have hnodup : ((updateProductCsv df d v).map Entry.date).Nodup :=
    hperm.nodup_iff.mpr (nodup_dates_updateBody df d v h)
  have hne : List.Pairwise (fun a b : Entry => a.date ≠ b.date) (updateProductCsv df d v) :=
    (List.pairwise_map).mp hnodup
  have hand := List.Pairwise.and hsorted hne
  exact hand.imp (fun hab => Nat.lt_of_le_of_ne hab.1 hab.2)

/-- Witness for claim C2 at a concrete ledger: inserting date 2 into the
one-row ledger dated 1 yields a strictly date-sorted, duplicate-free file. -/
theorem update_csv_sorted_unique_witness :
    List.Pairwise (fun a b : Entry => a.date < b.date)
      (updateProductCsv [⟨1, 100⟩] 2 none) :=
  update_csv_sorted_unique [⟨1, 100⟩] 2 none (by decide)

/-- Per-product idempotence: repeating the row update with the same date
and the same extracted reading leaves the ledger exactly as after one
run. -/
theorem update_csv_idempotent (df : Ledger) (d : Nat) (v : Option Nat) :
    updateProductCsv (updateProductCsv df d v) d v = updateProductCsv df d v := by
  have hmem1 : d ∈ (updateProductCsv df d v).map Entry.date := mem_date_update df d v
  have hsorted1 : List.Sorted eLe (updateProductCsv df d v) :=
    List.sorted_insertionSort eLe (updateBody df d v)
  have hbody2 : updateBody (updateProductCsv df d v) d v = updateProductCsv df d v := by
    unfold updateBody
    rw [if_pos hmem1]
    cases v with
    | some r =>
      apply map_fixed
      intro e he
      by_cases h0 : e.date = d
      · rw [if_pos h0]
        have hr : e.rate = r := rate_at_update df d r e he h0
        calc (⟨e.date, r⟩ : Entry) = ⟨e.date, e.rate⟩ := by rw [hr]
          _ = e := rfl
      · rw [if_neg h0]
    | none => rfl
  show List.insertionSort eLe (updateBody (updateProductCsv df d v) d v) =
    updateProductCsv df d v
  rw [hbody2]
  exact hsorted1.insertionSort_eq

/-- Counterexample to claim C1 as stated: with ledger rows dated 1 (rate
100) and 5 (rate 200) and an empty reading for date 3, the most recent
entry strictly before 3 has rate 100, yet the code forward-fills from the
frame's final row (`df.iloc[-1]`) and records rate 200 for date 3; no
provenance field exists in the written row. -/
theorem update_csv_forward_fill_cex :
    rateAt (updateProductCsv [⟨1, 100⟩, ⟨5, 200⟩] 3 none) 3 = some 200 ∧
    mostRecentRateBefore [⟨1, 100⟩, ⟨5, 200⟩] 3 = some 100 ∧
    rateAt (updateProductCsv [⟨1, 100⟩, ⟨5, 200⟩] 3 none) 3 ≠
      mostRecentRateBefore [⟨1, 100⟩, ⟨5, 200⟩] 3 := by
  refine ⟨by decide, by decide, by decide⟩

/-- Claim C1 as amended: when the values mapping holds no reading for the
product, date `d` has no existing row, and the ledger is nonempty, the run
adds a row for `d` whose rate is copied from the ledger's final stored row
(the most recent entry overall, not necessarily one dated before `d`), and
every row dated `d` after the write carries exactly that rate.  The
written row has only the fields date and rate; no provenance is stored. -/
theorem update_csv_forward_fill_amended (df : Ledger) (d : Nat) (last : Entry)
    (h2 : d ∉ df.map Entry.date) (h3 : df.getLast? = some last) :
    (⟨d, last.rate⟩ : Entry) ∈ updateProductCsv df d none ∧
    ∀ e ∈ updateProductCsv df d none, e.date = d → e.rate = last.rate := by
  have hbody : updateBody df d none = df ++ [⟨d, last.rate⟩] := by
    unfold updateBody
    rw [if_neg h2]
    simp only [h3]
  constructor
  · have : (⟨d, last.rate⟩ : Entry) ∈ updateBody df d none := by
      rw [hbody]
      exact List.mem_append_right df (List.mem_singleton.mpr rfl)
    exact ((List.perm_insertionSort eLe (updateBody df d none)).mem_iff).mpr this
  · intro e he hd
    have he2 : e ∈ updateBody df d none :=
      ((List.perm_insertionSort eLe (updateBody df d none)).mem_iff).mp he
    rw [hbody] at he2
    simp only [List.mem_append, List.mem_singleton] at he2
    rcases he2 with hL | hNew
    · exact absurd (hd ▸ List.mem_map_of_mem Entry.date hL) h2
    · rw [hNew]

/-- Witness for the amended claim C1: forward-filling date 7 into the
two-row ledger copies the final row's rate 200. -/
theorem update_csv_forward_fill_amended_witness :
    (⟨7, 200⟩ : Entry) ∈ updateProductCsv [⟨1, 100⟩, ⟨5, 200⟩] 7 none ∧
    ∀ e ∈ updateProductCsv [⟨1, 100⟩, ⟨5, 200⟩] 7 none, e.date = 7 → e.rate = 200 :=
  update_csv_forward_fill_amended [⟨1, 100⟩, ⟨5, 200⟩] 7 ⟨5, 200⟩ (by decide) (by decide)

/-- Counterexample to claim C6 as stated: with an entirely empty ledger
and no extracted reading, `update_csv_files` records the literal default
rate 0, not the product's configured fallback value (main_py.py configures
252500 for the first product), and stores no provenance field. -/
theorem update_csv_fallback_cex :
    rateAt (updateProductCsv [] 5 none) 5 = some 0 ∧
    fallbackRates 0 = 252500 ∧
    rateAt (updateProductCsv [] 5 none) 5 ≠ some (fallbackRates 0) := by
  refine ⟨by decide, by decide, by decide⟩

/-- Claim C6 as amended: on a date with no existing row, no extracted
reading, and no prior entry, main.py's `update_csv_files` writes the
single row with the hard-coded default rate 0 (not a per-product
configured fallback, and with no provenance field), while main_py.py's
`update_csv_files`, whose per-product file does not yet exist, creates the
file with a header and no row at all. -/
theorem update_csv_fallback_amended (d : Nat) :
    updateProductCsv [] d none = [⟨d, 0⟩] ∧
    updateProductCsvPy none d none = [] := by
  constructor
  · rfl
  · rfl

/-- A value kept by the non-overwriting merge comes from base or incoming. -/
theorem mergeKeep_source (base inc : RateMap) (p : Fin 7) (v : Nat)
    (h : mergeKeep base inc p = some v) : base p = some v ∨ inc p = some v := by
  unfold mergeKeep at h
  cases hb : base p with
  | some w =>
    rw [hb] at h
    exact Or.inl h
  | none =>
    rw [hb] at h
    exact Or.inr h

/-- A value kept by the overwriting merge comes from incoming or base. -/
theorem mergeOverwrite_source (base inc : RateMap) (p : Fin 7) (v : Nat)
    (h : mergeOverwrite base inc p = some v) : inc p = some v ∨ base p = some v := by
  unfold mergeOverwrite at h
  cases hb : inc p with
  | some w =>
    rw [hb] at h
    exact Or.inl h
  | none =>
    rw [hb] at h
    exact Or.inr h

/-- Already-resolved values pass through the non-overwriting merge. -/
theorem mergeKeep_of_base (base inc : RateMap) (p : Fin 7) (v : Nat)
    (h : base p = some v) : mergeKeep base inc p = some v := by
  unfold mergeKeep
  rw [h]

/-- Stage 3 never invents a value: it is the stage-2 value or strategy 3's. -/
theorem stage3_source (r2 s3 : RateMap) (p : Fin 7) (v : Nat)
    (h : stage3 r2 s3 p = some v) : r2 p = some v ∨ s3 p = some v := by
  unfold stage3 at h
  by_cases hc : mapSize r2 < numPRODUCTS
  · rw [if_pos hc] at h
    exact mergeKeep_source r2 s3 p v h
  · rw [if_neg hc] at h
    exact Or.inl h

/-- Stage 4 never invents a value: it is the stage-3 value or strategy 4's. -/
theorem stage4_source (r3 s4 : RateMap) (p : Fin 7) (v : Nat)
    (h : stage4 r3 s4 p = some v) : r3 p = some v ∨ s4 p = some v := by
  unfold stage4 at h
  by_cases hc : mapSize r3 < numPRODUCTS
  · rw [if_pos hc] at h
    exact mergeKeep_source r3 s4 p v h
  · rw [if_neg hc] at h
    exact Or.inl h

/-- Stage 2 never invents a value: it is strategy 1's or tabula's. -/
theorem stage2_source (s1 : RateMap) (s2 : Option RateMap) (p : Fin 7) (v : Nat)
    (h : stage2 s1 s2 p = some v) :
    s1 p = some v ∨ ∃ t, s2 = some t ∧ t p = some v := by
  unfold stage2 at h
  by_cases hc : mapSize s1 < numPRODUCTS
  · rw [if_pos hc] at h
    cases s2 with
    | some t =>
      rcases mergeOverwrite_source s1 t p v h with ht | hs
      · exact Or.inr ⟨t, rfl, ht⟩
      · exact Or.inl hs
    | none => exact Or.inl h
  · rw [if_neg hc] at h
    exact Or.inl h

/-- Stages 3 and 4 keep a value already present after stage 2. -/
theorem stages34_keep (r2 s3 s4 : RateMap) (p : Fin 7) (v : Nat)
    (h : r2 p = some v) : stage4 (stage3 r2 s3) s4 p = some v := by
  have h3 : stage3 r2 s3 p = some v := by
    unfold stage3
    by_cases hc : mapSize r2 < numPRODUCTS
    · rw [if_pos hc]
      exact mergeKeep_of_base r2 s3 p v h
    · rw [if_neg hc]
      exact h
  unfold stage4
  by_cases hc : mapSize (stage3 r2 s3) < numPRODUCTS
  · rw [if_pos hc]
    exact mergeKeep_of_base (stage3 r2 s3) s4 p v h3
  · rw [if_neg hc]
    exact h3

/-- Counterexample to claim C4 as stated: direct extraction (strategy 1)
resolves product 0 as 100 but leaves others missing, tabula (strategy 2)
resolves product 0 as 200, and the chain ends with 200: the later, lower
precision strategy overwrote the earlier result, so the final value is
not the first resolving strategy's 100. -/
theorem extract_merge_order_cex :
    mergeStrategies (onlyP0 100) (some (onlyP0 200)) emptyRates emptyRates 0 = some 200 ∧
    firstResolvedValue (onlyP0 100) (some (onlyP0 200)) emptyRates emptyRates 0 = some 100 ∧
    mergeStrategies (onlyP0 100) (some (onlyP0 200)) emptyRates emptyRates 0 ≠
      firstResolvedValue (onlyP0 100) (some (onlyP0 200)) emptyRates emptyRates 0 := by
  refine ⟨by decide, by decide, by decide⟩

/-- Claim C4 as amended: strategies 3 and 4 indeed never overwrite an
already-resolved product, but strategy 2 (tabula) does overwrite strategy
1: whenever strategy 1 is incomplete (so the chain proceeds) and tabula
resolves a product, the final chain value for that product is tabula's,
and it survives stages 3 and 4 unchanged. -/
theorem extract_merge_tabula_wins (s1 t s3 s4 : RateMap) (p : Fin 7) (v : Nat)
    (h1 : mapSize s1 < numPRODUCTS) (h2 : t p = some v) :
    mergeStrategies s1 (some t) s3 s4 p = some v := by
  have hst2 : stage2 s1 (some t) p = some v := by
    unfold stage2
    rw [if_pos h1]
    show mergeOverwrite s1 t p = some v
    unfold mergeOverwrite
    rw [h2]
  exact stages34_keep (stage2 s1 (some t)) s3 s4 p v hst2

/-- Witness for the amended claim C4: with strategy 1 empty and tabula
resolving product 0 as 5, the chain ends with 5. -/
theorem extract_merge_tabula_wins_witness :
    mergeStrategies emptyRates (some (onlyP0 5)) emptyRates emptyRates 0 = some 5 :=
  extract_merge_tabula_wins emptyRates (onlyP0 5) emptyRates emptyRates 0 5
    (by decide) (by decide)

/-- Counterexample to claim C5 as stated: when every strategy resolves
nothing, the pipeline does not return the empty mapping; it returns the
hard-coded fallback price 252500 for product 0, a value drawn from no
strategy result and hence not from the document text. -/
theorem extract_fabricates_cex :
    extract_data_from_pdf emptyRates (some emptyRates) emptyRates emptyRates 0 =
      some 252500 ∧
    firstResolvedValue emptyRates (some emptyRates) emptyRates emptyRates 0 = none ∧
    extract_data_from_pdf emptyRates (some emptyRates) emptyRates emptyRates 0 ≠
      firstResolvedValue emptyRates (some emptyRates) emptyRates emptyRates 0 := by
  refine ⟨by decide, by decide, by decide⟩

/-- Claim C5 as amended: every value the pipeline returns comes from one
of the four strategies' results, except that when the whole chain
resolves nothing the hard-coded fallback prices are substituted
(and an extraction exception makes main_py.py return None, not a
mapping). -/
theorem extract_values_source_amended (s1 : RateMap) (s2 : Option RateMap)
    (s3 s4 : RateMap) (p : Fin 7) (v : Nat)
    (h : extract_data_from_pdf s1 s2 s3 s4 p = some v) :
    s1 p = some v ∨ (∃ t, s2 = some t ∧ t p = some v) ∨ s3 p = some v ∨
      s4 p = some v ∨
      (mapSize (mergeStrategies s1 s2 s3 s4) = 0 ∧ v = fallbackRates p) := by
  unfold extract_data_from_pdf at h
  by_cases h0 : mapSize (mergeStrategies s1 s2 s3 s4) = 0
  · rw [if_pos h0] at h
    exact Or.inr (Or.inr (Or.inr (Or.inr ⟨h0, (Option.some.inj h).symm⟩)))
  · rw [if_neg h0] at h
    have hmerge : mergeStrategies s1 s2 s3 s4 p = some v := h
    unfold mergeStrategies at hmerge
    rcases stage4_source (stage3 (stage2 s1 s2) s3) s4 p v hmerge with h4 | h4
    · rcases stage3_source (stage2 s1 s2) s3 p v h4 with h3 | h3
      · rcases stage2_source s1 s2 p v h3 with h2 | h2
        · exact Or.inl h2
        · exact Or.inr (Or.inl h2)
      · exact Or.inr (Or.inr (Or.inl h3))
    · exact Or.inr (Or.inr (Or.inr (Or.inl h4)))

/-- Witness for the amended claim C5 at a concrete input: strategy 1
resolved product 0 as 7, and the returned 7 traces back to a strategy. -/
theorem extract_values_source_amended_witness :
    (onlyP0 7) 0 = some 7 ∨
      (∃ t, some emptyRates = some t ∧ t 0 = some 7) ∨
      emptyRates 0 = some 7 ∨ emptyRates 0 = some 7 ∨
      (mapSize (mergeStrategies (onlyP0 7) (some emptyRates) emptyRates emptyRates) = 0 ∧
        7 = fallbackRates 0) :=
  extract_values_source_amended (onlyP0 7) (some emptyRates) emptyRates emptyRates 0 7
    (by decide)

/-- Counterexample to claim C7 as stated: on Wednesday 2025-05-14, with a
network where every candidate for the 14th fails but the canonical URL of
the prior business day (Tuesday the 13th) succeeds, `process_date`
returns failure — it never retries any candidate of another day — whereas
the claimed behaviour would succeed on the fallback day's list. -/
theorem process_date_no_retry_cex :
    process_date (fun u => u == get_pdf_url ⟨2025, 5, 13⟩) false ⟨2025, 5, 14⟩ = false ∧
    acquireTwoDaySpec (fun u => u == get_pdf_url ⟨2025, 5, 13⟩) ⟨2025, 5, 14⟩ = true := by
  refine ⟨by decide, by decide⟩

/-- Claim C7 as amended: when every candidate URL of the target date
fails, main.py's `process_date` returns failure without attempting any
other day's URL; the prior-day retry exists only in main_py.py's `main`,
which after the same canonical-URL failure attempts exactly the canonical
URL of the previous calendar day (weekends are not skipped, and the
fourteen alternative spellings are not retried). -/
theorem process_date_no_retry_amended (down : String → Bool) (d : Date)
    (h : ∀ u ∈ urlsToTry d, down u = false) :
    process_date down false d = false ∧
    main_py_acquire down false d = down (get_pdf_url (prevDay d)) := by
  have h0 : down (get_pdf_url d) = false := h (get_pdf_url d) (List.mem_cons_self _ _)
  constructor
  · have hany : (urlsToTry d).any down = false := by
      rw [List.any_eq_false]
      intro u hu
      simp [h u hu]
    simpa [process_date] using hany
  · simp [main_py_acquire, h0]

/-- Witness for the amended claim C7: with every download failing, the
run for 2025-05-14 reports failure and main_py.py falls through to the
previous calendar day's canonical URL. -/
theorem process_date_no_retry_amended_witness :
    process_date (fun _ => false) false ⟨2025, 5, 14⟩ = false ∧
    main_py_acquire (fun _ => false) false ⟨2025, 5, 14⟩ =
      (fun _ => false) (get_pdf_url (prevDay ⟨2025, 5, 14⟩)) :=
  process_date_no_retry_amended (fun _ => false) ⟨2025, 5, 14⟩ (fun _ _ => rfl)

/-- Counterexample to claim C8 as stated: a 500-byte document whose
structural parse yields one page is accepted by `check_pdf_validity`
even though its text contains no domain-indicative keyword; the validator
never consults the text, so keyword absence is not a rejection. -/
theorem check_pdf_keyword_cex :
    check_pdf_validity true true ⟨500, some 1, "x"⟩ = true ∧
    specContainsDomainKeyword "x" = false := by
  refine ⟨by decide, by decide⟩

/-- Claim C8 as amended: with the PDF libraries available the validator
accepts exactly the documents whose structural parse succeeds with a
positive page count; document size and text (hence any keyword such as
"reckoner") are never consulted.  Only the library-free fallback branch
checks a size threshold (over 1000 bytes). -/
theorem check_pdf_validity_amended (pathExists : Bool) (f : PdfFile) :
    check_pdf_validity true pathExists f = true ↔
      ∃ n, f.numPages = some n ∧ 0 < n := by
  unfold check_pdf_validity
  cases hp : f.numPages with
  | some n => simp [hp]
  | none => simp [hp]

/-- Claim C9: the orchestrator's exit indication is non-zero exactly when
the weekday-filtered date list is non-empty and no acquisition succeeded,
and a run over an empty date list exits successfully (main.py
lines 344-375). -/
theorem main_exit_nonzero_iff (outcome : Date → Bool) (s e : Date) :
    mainExitCode outcome s e ≠ 0 ↔
      businessDates s e ≠ [] ∧ (businessDates s e).countP outcome = 0 := by
  unfold mainExitCode
  by_cases h0 : businessDates s e = []
  · simp [h0, successRatePositive]
  · have hlen : (businessDates s e).length ≠ 0 := by
      simpa [List.length_eq_zero] using h0
    by_cases hc : (businessDates s e).countP outcome = 0
    · simp [successRatePositive, hc, hlen, h0, Nat.pos_of_ne_zero hlen]
    · simp [successRatePositive, hc, hlen, h0, Nat.pos_of_ne_zero hlen,
        Nat.pos_of_ne_zero hc]

/-- Counterexample to claim C10 as stated: calling main_py.py's
`update_csv_files` with the empty mapping (which lacks a date key), when
the first product's CSV file does not exist, creates that file (header
only, zero rows), so not every ledger file is left untouched. -/
theorem update_csv_missing_date_cex :
    update_csv_files_py (some ⟨none, fun _ => none⟩) (fun _ => none) 0 = some [] ∧
    update_csv_files_py (some ⟨none, fun _ => none⟩) (fun _ => none) 0 ≠
      (fun _ => (none : Option Ledger)) 0 := by
  refine ⟨by decide, by decide⟩

/-- Claim C10 as amended: main.py's `update_csv_files` with no usable
date returns at once with every ledger file untouched; main_py.py's
behaves the same for a nonempty mapping without a date, but for a `None`
or empty mapping it first creates header-only CSV files for the products
whose file does not yet exist (existing files are untouched). -/
theorem update_csv_missing_date_amended (rates10 : Fin 10 → Option Nat)
    (fs10 : Fin 10 → Option Ledger) (pd : UpdateDataPy) (fs7 : Fin 7 → Option Ledger)
    (h1 : pd.date = none) (h2 : isEmptyDataPy pd = false) :
    update_csv_files ⟨none, rates10⟩ fs10 = fs10 ∧
    update_csv_files_py (some pd) fs7 = fs7 := by
  constructor
  · rfl
  · show (if isEmptyDataPy pd = true then createMissingEmpty fs7
      else
        match pd.date with
        | none => fs7
        | some d => fun p => some (updateProductCsvPy (fs7 p) d (pd.rates p))) = fs7
    rw [if_neg (by simp [h2])]
    rw [h1]

/-- Witness for the amended claim C10: a mapping carrying rates but no
date leaves a store with no files exactly as it was, in both scripts. -/
theorem update_csv_missing_date_amended_witness :
    update_csv_files ⟨none, fun _ => none⟩ (fun _ => none) = (fun _ => none) ∧
    update_csv_files_py (some ⟨none, fun _ => some 1⟩) (fun _ => none) = (fun _ => none) :=
  update_csv_missing_date_amended (fun _ => none) (fun _ => none)
    ⟨none, fun _ => some 1⟩ (fun _ => none) rfl (by decide)

/-- Claim C3: reconciliation is idempotent.  Running `update_csv_files`
twice with the same date and the same extracted values yields exactly the
ledger store of a single run: the second run changes neither any row count
nor any rate. -/
theorem update_csv_files_idempotent (data : UpdateData) (fs : Fin 10 → Option Ledger) :
    update_csv_files data (update_csv_files data fs) = update_csv_files data fs := by
  unfold update_csv_files
  cases hd : data.date with
  | none => rfl
  | some d =>
    funext p
    simp only [Option.getD_some]
    rw [update_csv_idempotent]
